import Mathlib

/-!
# kubecolor: coloring rules and printer selection

A shallow embedding of `color/color.go` (the palette constants and `Apply`) and of
`printer/kubectl_output_colored_printer.go`: the column rule that
`KubectlOutputColoredPrinter.Print` hands to the table printer for `kubectl get`, and the
selection of the printer by subcommand, format option and flags; theorems about them follow.

Go strings are modelled by Lean strings. Every string operation the rule uses
(`==`, `strings.Count` and `strings.Split` with the one-byte separator `"/"`,
`strings.Contains` with a one-letter needle, `strconv.Atoi`) looks at ASCII
bytes only, and an ASCII byte never occurs inside a multi-byte UTF-8 sequence,
so on UTF-8 text the character-level reading agrees with Go's byte-level one.
-/

namespace Kubecolor

/-! ## package color -/

/-- The type `Color`, declared `type Color int`. -/
abbrev Color := Int

def Black : Color := 0
def Red : Color := 1
def Green : Color := 2
def Yellow : Color := 3
def Blue : Color := 4
def Magenta : Color := 5
def Cyan : Color := 6
def White : Color := 7
def Green256 : Color := 34
def Yellow256 : Color := 226
def DarkGreen : Color := 28

/-- The constant `escape`. -/
def escape : String := "\x1b"

/-- The method `sequence`: `int(c)`. -/
def sequence (c : Color) : Int := c

/-- An operand of `fmt.Sprintf`: a string (for `%s`) or an `int` (for `%d`). -/
inductive Operand where
  | str (s : String)
  | int (n : Int)

/-- The verb `%d` of package `fmt` on an `int`: the decimal digits, after a `-` for a
negative number. -/
def formatInt (n : Int) : String :=
  if n < 0 then "-" ++ Nat.repr n.natAbs else Nat.repr n.natAbs

/-- Worker of `Sprintf` on character lists: `%s` and `%d` consume the next operand, every
other character of the format is copied. Inserted text is not scanned again. -/
def sprintfChars : List Char → List Operand → List Char
  | '%' :: 's' :: fmt, Operand.str s :: args => s.data ++ sprintfChars fmt args
  | '%' :: 'd' :: fmt, Operand.int n :: args => (formatInt n).data ++ sprintfChars fmt args
  | c :: fmt, args => c :: sprintfChars fmt args
  | [], _ => []

/-- Go's `fmt.Sprintf` for formats whose verbs are `%s` on a string and `%d` on an `int`. -/
def Sprintf (format : String) (args : List Operand) : String :=
  String.mk (sprintfChars format.data args)

/-- The function `Apply` of package color. -/
def Apply (val : String) (c : Color) : String :=
  Sprintf "%s[38;5;%dm%s%s[0m"
    [Operand.str escape, Operand.int (sequence c), Operand.str val, Operand.str escape]

/-! ## The Go library functions the rule calls -/

/-- Go's `strings.Count(s, sep)` for a one-byte separator: the number of occurrences of
`sep` in `s`. -/
def Count (s : String) (sep : Char) : Nat :=
  s.data.count sep

/-- Worker of `Split` on character lists: the pieces between occurrences of `sep`. -/
def splitChars (sep : Char) : List Char → List (List Char)
  | [] => [[]]
  | c :: cs =>
    if c = sep then [] :: splitChars sep cs
    else
      match splitChars sep cs with
      | [] => [[c]]
      | p :: ps => (c :: p) :: ps

/-- Go's `strings.Split(s, sep)` for a one-byte separator: all substrings of `s` separated by
`sep`; its length is `Count s sep + 1`, and `Split "" sep = [""]`. -/
def Split (s : String) (sep : Char) : List String :=
  (splitChars sep s.data).map String.mk

/-- Go's `strings.Contains(s, string(c))` for one byte `c`. -/
def Contains (s : String) (c : Char) : Bool :=
  s.data.contains c

/-- The constant `strconv.IntSize` of the 64-bit platforms. -/
def intSize : Nat := 64

/-- Base-10 digits read left to right into an accumulator; `none` at the first character
that is not `0`..`9` (the syntax error of `strconv.ParseUint`). -/
def parseDigits : List Char → Nat → Option Nat
  | [], acc => some acc
  | c :: cs, acc =>
    if '0' ≤ c ∧ c ≤ '9' then parseDigits cs (acc * 10 + (c.toNat - '0'.toNat)) else none

/-- Go's `strconv.Atoi`: an optional sign `+` or `-`, then at least one decimal digit and nothing
else. `none` stands for a non-nil error: a syntax error, or a range error when the value
does not fit the signed `intSize`-bit `int`. -/
def Atoi (s : String) : Option Int :=
  match s.data with
  | [] => none
  | c :: cs =>
    let neg : Bool := c = '-'
    let body : List Char := if c = '+' ∨ c = '-' then cs else c :: cs
    if body = [] then none
    else
      match parseDigits body 0 with
      | none => none
      | some un =>
        let cutoff : Nat := 2 ^ (intSize - 1)
        if neg = false ∧ un ≥ cutoff then none
        else if neg = true ∧ un > cutoff then none
        else some (if neg then -(un : Int) else (un : Int))

/-! ## The column rule of `kubectl get` (`Print`, lines 40-97)

The rule is the function literal passed to `NewTablePrinterWithHeader`. Its result is
`some (color, applies)` when the function returns and `none` when it stops with a run-time
panic (index out of range). The four `if` blocks of the source run in sequence; each block
below ends in the next one where the source falls through. -/

/-- The string constant `units` of the AGE block. -/
def units : List Char := ['s', 'm', 'h', 'd', 'y']

/-- The loop `for i := len(units) - 1; i >= 0; i--` of the AGE block, entered with `k`
indices left to visit (`i = k - 1`): the first index whose letter occurs in `column`
becomes `offset`, and `offset` keeps its initial `-1` when the loop runs out. -/
def ageOffset (column : String) : Nat → Int
  | 0 => -1
  | k + 1 => if Contains column (units.getD k ' ') then (k : Int) else ageOffset column k

/-- Lines 82-96: the AGE block and the final `return 0, false`. -/
def ageBlock (i : Int) (column header : String) : Option (Color × Bool) :=
  if header = "AGE" ∨ (header = "" ∧ i = 4) then
    some (Yellow256 + ageOffset column units.length, true)
  else
    some (0, false)

/-- Lines 70-80: the RESTARTS block. -/
def restartsBlock (i : Int) (column header : String) : Option (Color × Bool) :=
  if header = "RESTARTS" ∨ (header = "" ∧ i = 3) then
    match Atoi column with
    | none => some (Red, true)
    | some r => if r = 0 then some (Green256, true) else some (Yellow256, true)
  else
    ageBlock i column header

/-- Lines 54-68: the READY block. `arr[0]` and `arr[1]` index the result of `Split`;
an index past its end is the run-time panic. -/
def readyBlock (i : Int) (column header : String) : Option (Color × Bool) :=
  if header = "READY" ∨ (header = "" ∧ Count column '/' = 1) then
    let arr := Split column '/'
    match arr.get? 0, arr.get? 1 with
    | some a0, some a1 =>
      if a0 ≠ a1 then
        match Atoi a0, Atoi a1 with
        | some n, some m =>
          if n = 0 ∧ m > 0 then some (Red, true) else some (Yellow256, true)
        | _, _ => restartsBlock i column header
      else
        some (Green256, true)
    | _, _ => none
  else
    restartsBlock i column header

/-- Lines 40-97: the column rule `func(i int, column string, header string) (color.Color, bool)`,
starting with the STATUS block (lines 41-52). -/
def columnRule (i : Int) (column header : String) : Option (Color × Bool) :=
  if header = "STATUS" ∨ (header = "" ∧ i = 2) then
    if column = "Running" then some (Green256, true)
    else if column = "Completed" ∨ column = "Succeeded" then some (DarkGreen, true)
    else if column = "Pending" ∨ column = "ContainerCreating" then some (Yellow256, true)
    else if column = "ImagePullBackOff" ∨ column = "CrashLoopBackOff" ∨ column = "Error" then
      some (Red, true)
    else readyBlock i column header
  else
    readyBlock i column header

/-! ## The dispatcher `KubectlOutputColoredPrinter.Print` (lines 14-150)

The package `kubectl` and the printers other than the dispatcher are declared outside the
two source files; the declarations below hold what `Print` reads and builds. -/

/-- Modelled from the spec: the type `kubectl.Subcommand`, the subcommand identity of the
render context. Its nine constants named by `Print` are pairwise distinct (they are the
cases of one `switch`); `other` stands for every further value. -/
inductive Subcommand where
  | Top
  | APIResources
  | APIVersions
  | Get
  | Describe
  | Explain
  | Version
  | Options
  | Apply
  | other (code : Nat)
  deriving DecidableEq

/-- Modelled from the spec: the type `kubectl.FormatOption`, the requested format of the
render context, with the four constants named by `Print`; `other` stands for every
further value. -/
inductive FormatOption where
  | None
  | Wide
  | Json
  | Yaml
  | other (code : Nat)
  deriving DecidableEq

/-- Modelled from the spec: the fields of `kubectl.SubcommandInfo` that `Print` reads. -/
structure SubcommandInfo where
  Subcommand : Subcommand
  FormatOption : FormatOption
  NoHeader : Bool
  Short : Bool
  Help : Bool

/-- The struct `KubectlOutputColoredPrinter` (lines 14-18), with the `SubcommandInfo` its
pointer field refers to. -/
structure KubectlOutputColoredPrinter where
  SubcommandInfo : SubcommandInfo
  DarkBackground : Bool
  Recursive : Bool

/-- The type of the column rule, `func(i int, column string, header string) (color.Color, bool)`. -/
abbrev ColumnRule := Int → String → String → Option (Color × Bool)

/-- Modelled from the spec: the table strategy, which the constructors `NewTablePrinter`
and `NewTablePrinterWithHeader` build. It records their three arguments: the header flag,
the dark-background flag and the column rule (`none` for `nil`). -/
structure TablePrinter where
  WithHeader : Bool
  DarkBackground : Bool
  ColorDeciderFn : Option ColumnRule

/-- Modelled from the spec: the constructor `NewTablePrinter(withHeader, darkBackground,
colorDeciderFn)`; `Print` passes `nil` as its third argument at every call. -/
def NewTablePrinter (withHeader darkBackground : Bool) (colorDeciderFn : Option ColumnRule) :
    TablePrinter :=
  { WithHeader := withHeader, DarkBackground := darkBackground, ColorDeciderFn := colorDeciderFn }

/-- Modelled from the spec: the constructor `NewTablePrinterWithHeader(withHeader,
darkBackground, colorDeciderFn)`, the table strategy with a column rule that sees the
header text. -/
def NewTablePrinterWithHeader (withHeader darkBackground : Bool) (colorDeciderFn : ColumnRule) :
    TablePrinter :=
  { WithHeader := withHeader, DarkBackground := darkBackground,
    ColorDeciderFn := some colorDeciderFn }

/-- The values of the interface `Printer` that `Print` builds, each with the fields the
composite literal sets. -/
inductive Printer where
  | SingleColoredPrinter (Color : Kubecolor.Color)
  | Table (p : TablePrinter)
  | JsonPrinter (DarkBackground : Bool)
  | YamlPrinter (DarkBackground : Bool)
  | DescribePrinter (DarkBackground : Bool) (TablePrinter : TablePrinter)
  | ExplainPrinter (DarkBackground : Bool) (Recursive : Bool)
  | VersionShortPrinter (DarkBackground : Bool)
  | VersionPrinter (DarkBackground : Bool)
  | OptionsPrinter (DarkBackground : Bool)
  | ApplyPrinter (DarkBackground : Bool)

/-- Lines 23-147 of `Print`: the value of the variable `printer` when line 149 is reached.
It starts as the green single-color printer, the `switch` on the subcommand may replace
it, and the help flag replaces it last. -/
def selectedPrinter (kp : KubectlOutputColoredPrinter) : Printer :=
  let withHeader := !kp.SubcommandInfo.NoHeader
  let printer := Printer.SingleColoredPrinter Green
  let printer :=
    match kp.SubcommandInfo.Subcommand with
    | Subcommand.Top | Subcommand.APIResources =>
      Printer.Table (NewTablePrinter withHeader kp.DarkBackground none)
    | Subcommand.APIVersions =>
      Printer.Table (NewTablePrinter false kp.DarkBackground none)
    | Subcommand.Get =>
      if kp.SubcommandInfo.FormatOption = FormatOption.None ∨
          kp.SubcommandInfo.FormatOption = FormatOption.Wide then
        Printer.Table (NewTablePrinterWithHeader withHeader kp.DarkBackground columnRule)
      else if kp.SubcommandInfo.FormatOption = FormatOption.Json then
        Printer.JsonPrinter kp.DarkBackground
      else if kp.SubcommandInfo.FormatOption = FormatOption.Yaml then
        Printer.YamlPrinter kp.DarkBackground
      else printer
    | Subcommand.Describe =>
      Printer.DescribePrinter kp.DarkBackground (NewTablePrinter false kp.DarkBackground none)
    | Subcommand.Explain =>
      Printer.ExplainPrinter kp.DarkBackground kp.Recursive
    | Subcommand.Version =>
      if kp.SubcommandInfo.FormatOption = FormatOption.Json then
        Printer.JsonPrinter kp.DarkBackground
      else if kp.SubcommandInfo.FormatOption = FormatOption.Yaml then
        Printer.YamlPrinter kp.DarkBackground
      else if kp.SubcommandInfo.Short then
        Printer.VersionShortPrinter kp.DarkBackground
      else
        Printer.VersionPrinter kp.DarkBackground
    | Subcommand.Options =>
      Printer.OptionsPrinter kp.DarkBackground
    | Subcommand.Apply =>
      if kp.SubcommandInfo.FormatOption = FormatOption.Json then
        Printer.JsonPrinter kp.DarkBackground
      else if kp.SubcommandInfo.FormatOption = FormatOption.Yaml then
        Printer.YamlPrinter kp.DarkBackground
      else
        Printer.ApplyPrinter kp.DarkBackground
    | Subcommand.other _ => printer
  if kp.SubcommandInfo.Help then Printer.SingleColoredPrinter Yellow else printer

/-- The method `Print` (lines 22-150), as the sequence of the calls `printer.Print(r, w)`
it makes: the one call of line 149, on the selected printer. What that call writes is
decided by printers outside the two source files. -/
def Print (kp : KubectlOutputColoredPrinter) : List Printer :=
  [selectedPrinter kp]

/-! ## Vocabulary of the specification -/

/-- A decimal string of a non-negative integer: one or more of the digits `0`..`9`. -/
def isDecimal (s : String) : Prop :=
  s.data ≠ [] ∧ ∀ c ∈ s.data, '0' ≤ c ∧ c ≤ '9'

instance (s : String) : Decidable (isDecimal s) := by
  unfold isDecimal; infer_instance

/-- The non-negative integer a decimal string denotes. -/
def decimalValue (s : String) : Nat :=
  s.data.foldl (fun acc c => acc * 10 + (c.toNat - '0'.toNat)) 0

/-- The cell text `n/m`. -/
def fraction (n m : String) : String := n ++ "/" ++ m

/-- The largest-magnitude unit letter of an age, found by scanning `y`, `d`, `h`, `m`, `s`
in this order and taking the first one present; its rank is `s = 0` .. `y = 4`. -/
def largestUnitRank (cell : String) : Option Nat :=
  if Contains cell 'y' then some 4
  else if Contains cell 'd' then some 3
  else if Contains cell 'h' then some 2
  else if Contains cell 'm' then some 1
  else if Contains cell 's' then some 0
  else none

/-- The color of a readiness fraction: for a cell with exactly one `/`, Green256 when the
two halves are equal strings, and for unequal halves that both parse as integers Red when
`n = 0` and `m > 0` and Yellow256 otherwise; `none` (no color) for a cell with a half that
does not parse, and for a cell that does not hold exactly one `/`. -/
def fractionColor (cell : String) : Option Color :=
  match Split cell '/' with
  | [n, m] =>
    if n = m then some Green256
    else
      match Atoi n, Atoi m with
      | some a, some b => if a = 0 ∧ b > 0 then some Red else some Yellow256
      | _, _ => none
  | _ => none

/-- The eight status texts the rule knows. -/
def knownStatuses : List String :=
  ["Running", "Completed", "Succeeded", "Pending", "ContainerCreating",
   "ImagePullBackOff", "CrashLoopBackOff", "Error"]

/-- The 256-color foreground selection sequence of a palette index:
`ESC [38;5; index m`. -/
def foregroundPrefix (c : Color) : String :=
  "\x1b[38;5;" ++ formatInt c ++ "m"

/-- The reset-all sequence `ESC [0m`. -/
def resetAll : String := "\x1b[0m"

/-- The text left after dropping `pre` characters at the front and `suf` at the back. -/
def dropEnds (pre suf : Nat) (s : String) : String :=
  String.mk ((s.data.drop pre).reverse.drop suf).reverse

/-- The column rule a strategy carries, if any: that of a table strategy, or of the inner
table of the nested-table strategy. -/
def columnRuleOf : Printer → Option ColumnRule
  | Printer.Table p => p.ColorDeciderFn
  | Printer.DescribePrinter _ t => t.ColorDeciderFn
  | _ => none

/-- A single-color strategy. -/
def isSingleColored : Printer → Bool
  | Printer.SingleColoredPrinter _ => true
  | _ => false

/-- The render context of one call: the receiver of `Print` with the subcommand, the format
option and the flags `NoHeader`, `Short`, `Help`, `DarkBackground`, `Recursive` given in
this order. -/
def renderContext (sub : Subcommand) (fo : FormatOption)
    (noHeader short help darkBackground recursive : Bool) : KubectlOutputColoredPrinter :=
  { SubcommandInfo := { Subcommand := sub, FormatOption := fo, NoHeader := noHeader,
                        Short := short, Help := help },
    DarkBackground := darkBackground, Recursive := recursive }

/-- The palette indices the column rule can apply. -/
def rulePalette : List Color := [1, 28, 34, 225, 226, 227, 228, 229, 230]

/-! ## Lemmas on the library functions -/

theorem splitChars_length (sep : Char) (l : List Char) :
    (splitChars sep l).length = l.count sep + 1 := by
  induction l with
  | nil => rfl
  | cons c cs ih =>
    by_cases hc : c = sep
    · subst hc
      simp [splitChars, ih]
    · have hne : (c == sep) = false := by simpa using hc
      rw [List.count_cons, hne]
      cases hs : splitChars sep cs with
      | nil => rw [hs] at ih; simp at ih
      | cons p ps =>
        rw [hs] at ih
        simp [splitChars, hc, hs] at ih ⊢
        omega

theorem splitChars_of_not_mem (sep : Char) (l : List Char) (h : sep ∉ l) :
    splitChars sep l = [l] := by
  induction l with
  | nil => rfl
  | cons c cs ih =>
    have hc : c ≠ sep := fun e => h (by simp [e])
    have hcs : sep ∉ cs := fun e => h (by simp [e])
    simp [splitChars, hc, ih hcs]

theorem splitChars_append_sep (sep : Char) (a b : List Char) (h : sep ∉ a) :
    splitChars sep (a ++ sep :: b) = a :: splitChars sep b := by
  induction a with
  | nil => simp [splitChars]
  | cons c cs ih =>
    have hc : c ≠ sep := fun e => h (by simp [e])
    have hcs : sep ∉ cs := fun e => h (by simp [e])
    simp [splitChars, hc, ih hcs]

theorem Split_length (s : String) (sep : Char) :
    (Split s sep).length = Count s sep + 1 := by
  simp [Split, Count, splitChars_length]

theorem Split_fraction (n m : String) (hn : '/' ∉ n.data) (hm : '/' ∉ m.data) :
    Split (fraction n m) '/' = [n, m] := by
  have h : (fraction n m).data = n.data ++ '/' :: m.data := by
    simp [fraction, String.data_append]
  simp [Split, h, splitChars_append_sep _ _ _ hn, splitChars_of_not_mem _ _ hm]

theorem Count_fraction (n m : String) (hn : '/' ∉ n.data) (hm : '/' ∉ m.data) :
    Count (fraction n m) '/' = 1 := by
  have h : (fraction n m).data = n.data ++ '/' :: m.data := by
    simp [fraction, String.data_append]
  simp [Count, h, List.count_eq_zero_of_not_mem hn, List.count_eq_zero_of_not_mem hm]

theorem parseDigits_of_digits (l : List Char) (acc : Nat)
    (h : ∀ c ∈ l, '0' ≤ c ∧ c ≤ '9') :
    parseDigits l acc = some (l.foldl (fun a c => a * 10 + (c.toNat - '0'.toNat)) acc) := by
  induction l generalizing acc with
  | nil => rfl
  | cons c cs ih =>
    have hc : '0' ≤ c ∧ c ≤ '9' := h c (by simp)
    have hcs : ∀ d ∈ cs, '0' ≤ d ∧ d ≤ '9' := fun d hd => h d (by simp [hd])
    simp only [parseDigits, hc, and_self, if_true, List.foldl_cons]
    exact ih _ hcs

theorem slash_not_mem_of_isDecimal (s : String) (h : isDecimal s) : '/' ∉ s.data := by
  intro hmem
  have := h.2 '/' hmem
  exact absurd this.1 (by decide)

/-- On a decimal string `Atoi` yields the denoted value when it is below `2 ^ 63`, and the
range error otherwise. -/
theorem Atoi_of_isDecimal (s : String) (h : isDecimal s) :
    Atoi s = if decimalValue s < 2 ^ 63 then some (decimalValue s : Int) else none := by
  obtain ⟨hne, hall⟩ := h
  cases hd : s.data with
  | nil => exact absurd hd hne
  | cons c cs =>
    have hc : '0' ≤ c ∧ c ≤ '9' := hall c (by simp [hd])
    have hplus : c ≠ '+' := fun e => absurd (e ▸ hc.1) (by decide)
    have hminus : c ≠ '-' := fun e => absurd (e ▸ hc.1) (by decide)
    have hall2 : ∀ d ∈ c :: cs, '0' ≤ d ∧ d ≤ '9' := fun d hd2 => hall d (by rw [hd]; exact hd2)
    have hp := parseDigits_of_digits (c :: cs) 0 hall2
    have hv : decimalValue s = (c :: cs).foldl (fun a c => a * 10 + (c.toNat - '0'.toNat)) 0 := by
      simp [decimalValue, hd]
    generalize (c :: cs).foldl (fun a c => a * 10 + (c.toNat - '0'.toNat)) 0 = v at hp hv
    unfold Atoi
    rw [hd]
    simp only [hplus, hminus, or_self, if_false, decide_False, hp, hv, intSize]
    norm_num
    by_cases hlt : v < 9223372036854775808
    · have h2 : ¬ (9223372036854775808 ≤ v) := by omega
      simp [h2, hlt]
    · have h2 : 9223372036854775808 ≤ v := by omega
      simp [h2, hlt]

/-! ## Lemmas on the blocks of the rule -/

theorem columnRule_RESTARTS (i : Int) (cell : String) :
    columnRule i cell "RESTARTS" =
      match Atoi cell with
      | none => some (Red, true)
      | some r => if r = 0 then some (Green256, true) else some (Yellow256, true) := by
  simp [columnRule, readyBlock, restartsBlock]

theorem columnRule_AGE (i : Int) (cell : String) :
    columnRule i cell "AGE" = some (Yellow256 + ageOffset cell units.length, true) := by
  simp [columnRule, readyBlock, restartsBlock, ageBlock]

theorem ageOffset_units (cell : String) :
    ageOffset cell units.length =
      match largestUnitRank cell with
      | some r => (r : Int)
      | none => -1 := by
  simp only [units, List.length_cons, List.length_nil, ageOffset, largestUnitRank,
    List.getD_cons_succ, List.getD_cons_zero]
  by_cases hy : Contains cell 'y' = true
  · simp [hy]
  by_cases hd : Contains cell 'd' = true
  · simp [hy, hd]
  by_cases hh : Contains cell 'h' = true
  · simp [hy, hd, hh]
  by_cases hm : Contains cell 'm' = true
  · simp [hy, hd, hh, hm]
  by_cases hs : Contains cell 's' = true
  · simp [hy, hd, hh, hm, hs]
  · simp [hy, hd, hh, hm, hs]

theorem largestUnitRank_le (cell : String) (r : Nat) (h : largestUnitRank cell = some r) :
    r ≤ 4 := by
  unfold largestUnitRank at h
  split_ifs at h <;> simp at h <;> omega

theorem columnRule_READY_fraction (i : Int) (n m : String)
    (hn : '/' ∉ n.data) (hm : '/' ∉ m.data) :
    columnRule i (fraction n m) "READY" =
      if n ≠ m then
        match Atoi n, Atoi m with
        | some a, some b => if a = 0 ∧ b > 0 then some (Red, true) else some (Yellow256, true)
        | _, _ => some (0, false)
      else some (Green256, true) := by
  simp only [columnRule, readyBlock, Split_fraction n m hn hm]
  by_cases hne : n = m
  · simp [hne]
  · cases h1 : Atoi n <;> cases h2 : Atoi m <;> simp [hne, restartsBlock, ageBlock, h1, h2]

theorem ageBlock_ne_none (i : Int) (column header : String) :
    ageBlock i column header ≠ none := by
  unfold ageBlock
  split_ifs <;> simp

theorem restartsBlock_ne_none (i : Int) (column header : String) :
    restartsBlock i column header ≠ none := by
  unfold restartsBlock
  split_ifs
  · cases Atoi column with
    | none => simp
    | some r => by_cases hr : r = 0 <;> simp [hr]
  · exact ageBlock_ne_none i column header

/-- The READY block with its condition met, by the shape of the split cell. -/
theorem readyBlock_of_cond (i : Int) (column header : String)
    (h : header = "READY" ∨ (header = "" ∧ Count column '/' = 1)) :
    readyBlock i column header =
      match Split column '/' with
      | a0 :: a1 :: _ =>
        if a0 ≠ a1 then
          match Atoi a0, Atoi a1 with
          | some n, some m =>
            if n = 0 ∧ m > 0 then some (Red, true) else some (Yellow256, true)
          | _, _ => restartsBlock i column header
        else some (Green256, true)
      | _ => none := by
  unfold readyBlock
  rw [if_pos h]
  rcases hs : Split column '/' with _ | ⟨a, _ | ⟨b, rest⟩⟩ <;> simp

theorem readyBlock_eq_none_iff (i : Int) (column header : String) :
    readyBlock i column header = none ↔ header = "READY" ∧ Count column '/' = 0 := by
  by_cases h : header = "READY" ∨ (header = "" ∧ Count column '/' = 1)
  · rw [readyBlock_of_cond i column header h]
    have hlen := Split_length column '/'
    rcases hs : Split column '/' with _ | ⟨a, _ | ⟨b, rest⟩⟩
    · rw [hs] at hlen; simp at hlen
    · rw [hs] at hlen
      have hc : Count column '/' = 0 := by simpa using hlen.symm
      have hh : header = "READY" := by
        rcases h with h | ⟨_, h1⟩
        · exact h
        · omega
      simp [hc, hh]
    · rw [hs] at hlen
      have hc : Count column '/' ≠ 0 := by simp at hlen; omega
      have hr := restartsBlock_ne_none i column header
      by_cases hab : a = b
      · simp [hab, hc]
      · cases h1 : Atoi a <;> cases h2 : Atoi b <;> simp [hab, hc, hr, h1, h2]
        split_ifs <;> simp
  · have hh : header ≠ "READY" := fun e => h (Or.inl e)
    unfold readyBlock
    rw [if_neg h]
    simp [hh, restartsBlock_ne_none]

theorem columnRule_of_not_known (i : Int) (cell header : String)
    (hcell : cell ∉ knownStatuses) :
    columnRule i cell header = readyBlock i cell header := by
  simp only [knownStatuses, List.mem_cons, List.mem_singleton, List.not_mem_nil, or_false,
    not_or] at hcell
  obtain ⟨h1, h2, h3, h4, h5, h6, h7, h8⟩ := hcell
  simp [columnRule, h1, h2, h3, h4, h5, h6, h7, h8]

theorem ageOffset_units_range (cell : String) :
    -1 ≤ ageOffset cell units.length ∧ ageOffset cell units.length ≤ 4 := by
  rw [ageOffset_units]
  cases h : largestUnitRank cell with
  | none => simp
  | some r =>
    have := largestUnitRank_le cell r h
    simp only
    omega

theorem ageBlock_palette (i : Int) (cell header : String) (c : Color)
    (h : ageBlock i cell header = some (c, true)) : c ∈ rulePalette := by
  unfold ageBlock at h
  split_ifs at h
  · obtain ⟨h1, h2⟩ := ageOffset_units_range cell
    simp only [Option.some.injEq, Prod.mk.injEq, and_true] at h
    generalize ageOffset cell units.length = off at h h1 h2
    subst h
    have hcases : off = -1 ∨ off = 0 ∨ off = 1 ∨ off = 2 ∨ off = 3 ∨ off = 4 := by omega
    rcases hcases with e | e | e | e | e | e <;> subst e <;> decide
  · simp at h

theorem restartsBlock_palette (i : Int) (cell header : String) (c : Color)
    (h : restartsBlock i cell header = some (c, true)) : c ∈ rulePalette := by
  unfold restartsBlock at h
  split_ifs at h
  · cases hA : Atoi cell with
    | none =>
      rw [hA] at h
      simp only [Option.some.injEq, Prod.mk.injEq, and_true] at h
      subst h; decide
    | some r =>
      rw [hA] at h
      by_cases hr : r = 0
      · simp only [hr, if_true, Option.some.injEq, Prod.mk.injEq, and_true] at h
        subst h; decide
      · simp only [hr, if_false, Option.some.injEq, Prod.mk.injEq, and_true] at h
        subst h; decide
  · exact ageBlock_palette i cell header c h

theorem readyBlock_palette (i : Int) (cell header : String) (c : Color)
    (h : readyBlock i cell header = some (c, true)) : c ∈ rulePalette := by
  by_cases hcond : header = "READY" ∨ (header = "" ∧ Count cell '/' = 1)
  · rw [readyBlock_of_cond i cell header hcond] at h
    rcases hs : Split cell '/' with _ | ⟨a, _ | ⟨b, rest⟩⟩
    · rw [hs] at h; simp at h
    · rw [hs] at h; simp at h
    · rw [hs] at h
      by_cases hab : a = b
      · simp only [hab, ne_eq, not_true_eq_false, if_false, Option.some.injEq, Prod.mk.injEq,
          and_true] at h
        subst h; decide
      · simp only [ne_eq, hab, not_false_eq_true, if_true] at h
        cases h1 : Atoi a with
        | none =>
          rw [h1] at h
          exact restartsBlock_palette i cell header c h
        | some n =>
          cases h2 : Atoi b with
          | none =>
            rw [h1, h2] at h
            exact restartsBlock_palette i cell header c h
          | some m =>
            rw [h1, h2] at h
            simp only at h
            split_ifs at h <;>
              simp only [Option.some.injEq, Prod.mk.injEq, and_true] at h <;>
              subst h <;> decide
  · unfold readyBlock at h
    rw [if_neg hcond] at h
    exact restartsBlock_palette i cell header c h

theorem rulePalette_bounds (c : Color) (h : c ∈ rulePalette) : 0 ≤ c ∧ c ≤ 255 := by
  simp only [rulePalette, List.mem_cons, List.mem_singleton, List.not_mem_nil, or_false] at h
  rcases h with e | e | e | e | e | e | e | e | e <;> subst e <;> decide

/-! ## Lemmas on cells with one slash -/

theorem splitChars_one (sep : Char) (l b : List Char) (h : splitChars sep l = [b]) :
    l = b := by
  induction l generalizing b with
  | nil => simpa [splitChars] using h
  | cons c cs ih =>
    by_cases hc : c = sep
    · have hlen := splitChars_length sep cs
      simp only [splitChars, hc, if_true, List.cons.injEq] at h
      rw [h.2] at hlen
      simp at hlen
    · cases hs : splitChars sep cs with
      | nil =>
        have hlen := splitChars_length sep cs
        rw [hs] at hlen
        simp at hlen
      | cons p ps =>
        simp only [splitChars, hc, if_false, hs, List.cons.injEq] at h
        obtain ⟨h1, h2⟩ := h
        subst h2
        rw [ih p hs, h1]

theorem splitChars_two (sep : Char) (l a b : List Char) (h : splitChars sep l = [a, b]) :
    l = a ++ sep :: b := by
  induction l generalizing a with
  | nil => simp [splitChars] at h
  | cons c cs ih =>
    by_cases hc : c = sep
    · simp only [splitChars, hc, if_true, List.cons.injEq] at h
      obtain ⟨h1, h2⟩ := h
      rw [← h1, splitChars_one sep cs b h2, hc]
      rfl
    · cases hs : splitChars sep cs with
      | nil =>
        have hlen := splitChars_length sep cs
        rw [hs] at hlen
        simp at hlen
      | cons p ps =>
        simp only [splitChars, hc, if_false, hs, List.cons.injEq] at h
        obtain ⟨h1, h2⟩ := h
        subst h2
        rw [ih p hs, ← h1]
        rfl

theorem Split_two_data (cell n m : String) (h : Split cell '/' = [n, m]) :
    cell.data = n.data ++ '/' :: m.data := by
  unfold Split at h
  rcases hs : splitChars '/' cell.data with _ | ⟨a, _ | ⟨b, _ | ⟨c, rest⟩⟩⟩ <;>
    rw [hs] at h <;> simp at h
  obtain ⟨h1, h2⟩ := h
  rw [← h1, ← h2]
  exact splitChars_two '/' cell.data a b hs

theorem Split_two_of_count (cell : String) (h : Count cell '/' = 1) :
    ∃ n m, Split cell '/' = [n, m] := by
  have hlen := Split_length cell '/'
  rw [h] at hlen
  rcases hs : Split cell '/' with _ | ⟨a, _ | ⟨b, _ | ⟨c, rest⟩⟩⟩ <;>
    rw [hs] at hlen <;> simp at hlen
  exact ⟨a, b, rfl⟩

theorem count_of_Split_two (cell n m : String) (h : Split cell '/' = [n, m]) :
    Count cell '/' = 1 := by
  have hlen := Split_length cell '/'
  rw [h] at hlen
  simp at hlen
  omega

theorem fractionColor_none_of_count (cell : String) (h : Count cell '/' ≠ 1) :
    fractionColor cell = none := by
  unfold fractionColor
  rcases hs : Split cell '/' with _ | ⟨a, _ | ⟨b, _ | ⟨c, rest⟩⟩⟩ <;> try rfl
  exact absurd (count_of_Split_two cell a b hs) h

theorem count_of_fractionColor (cell : String) (c : Color) (h : fractionColor cell = some c) :
    Count cell '/' = 1 := by
  by_contra hc
  rw [fractionColor_none_of_count cell hc] at h
  simp at h

theorem fractionColor_mem (cell : String) (c : Color) (h : fractionColor cell = some c) :
    c = Green256 ∨ c = Red ∨ c = Yellow256 := by
  unfold fractionColor at h
  rcases hs : Split cell '/' with _ | ⟨a, _ | ⟨b, _ | ⟨d, rest⟩⟩⟩ <;> rw [hs] at h <;>
    simp only at h <;> try (simp at h; done)
  by_cases hab : a = b
  · simp only [hab, if_true, Option.some.injEq] at h
    exact Or.inl h.symm
  · simp only [hab, if_false] at h
    cases h1 : Atoi a <;> cases h2 : Atoi b <;> rw [h1, h2] at h <;> simp only at h <;>
      try (simp at h; done)
    split_ifs at h
    · exact Or.inr (Or.inl (Option.some.inj h).symm)
    · exact Or.inr (Or.inr (Option.some.inj h).symm)

/-- The READY block on a cell with exactly one `/`, under the header `READY` or no header:
the color of the fraction when it has one, the RESTARTS block otherwise. -/
theorem readyBlock_one_slash (i : Int) (cell header : String) (hc : Count cell '/' = 1)
    (hh : header = "READY" ∨ header = "") :
    readyBlock i cell header =
      match fractionColor cell with
      | some c => some (c, true)
      | none => restartsBlock i cell header := by
  have hcond : header = "READY" ∨ (header = "" ∧ Count cell '/' = 1) := by
    rcases hh with h | h
    · exact Or.inl h
    · exact Or.inr ⟨h, hc⟩
  obtain ⟨n, m, hs⟩ := Split_two_of_count cell hc
  rw [readyBlock_of_cond i cell header hcond]
  unfold fractionColor
  rw [hs]
  by_cases hab : n = m
  · simp [hab]
  · cases h1 : Atoi n <;> cases h2 : Atoi m <;> simp [hab, h1, h2]
    split_ifs <;> rfl

/-- The READY block without a header: the color of the fraction when the cell has one, the
RESTARTS block otherwise. -/
theorem readyBlock_empty_header (i : Int) (cell : String) :
    readyBlock i cell "" =
      match fractionColor cell with
      | some c => some (c, true)
      | none => restartsBlock i cell "" := by
  by_cases hc : Count cell '/' = 1
  · exact readyBlock_one_slash i cell "" hc (Or.inr rfl)
  · rw [fractionColor_none_of_count cell hc]
    simp [readyBlock, hc]

theorem parseDigits_some_digits (l : List Char) (acc v : Nat)
    (h : parseDigits l acc = some v) : ∀ c ∈ l, '0' ≤ c ∧ c ≤ '9' := by
  induction l generalizing acc with
  | nil => intro c hc; simp at hc
  | cons d ds ih =>
    unfold parseDigits at h
    by_cases hd : '0' ≤ d ∧ d ≤ '9'
    · rw [if_pos hd] at h
      intro c hc
      rcases List.mem_cons.mp hc with e | e
      · rw [e]; exact hd
      · exact ih _ h c e
    · rw [if_neg hd] at h
      simp at h

/-- A string `Atoi` accepts holds nothing but digits and signs. -/
theorem Atoi_some_chars (s : String) (v : Int) (h : Atoi s = some v) :
    ∀ c ∈ s.data, ('0' ≤ c ∧ c ≤ '9') ∨ c = '+' ∨ c = '-' := by
  unfold Atoi at h
  cases hd : s.data with
  | nil => rw [hd] at h; simp at h
  | cons d ds =>
    rw [hd] at h
    simp only at h
    by_cases hs : d = '+' ∨ d = '-'
    · rw [if_pos hs] at h
      cases hp : parseDigits ds 0 with
      | none => rw [hp] at h; simp at h
      | some un =>
        have hdig := parseDigits_some_digits ds 0 un hp
        intro c hc
        rcases List.mem_cons.mp hc with e | e
        · rw [e]; exact Or.inr hs
        · exact Or.inl (hdig c e)
    · rw [if_neg hs] at h
      cases hp : parseDigits (d :: ds) 0 with
      | none => rw [hp] at h; simp at h
      | some un =>
        have hdig := parseDigits_some_digits (d :: ds) 0 un hp
        intro c hc
        exact Or.inl (hdig c hc)

theorem Atoi_none_of_slash (s : String) (h : '/' ∈ s.data) : Atoi s = none := by
  cases hA : Atoi s with
  | none => rfl
  | some v =>
    have hch := Atoi_some_chars s v hA '/' h
    exact absurd hch (by decide)

theorem Atoi_none_of_count (cell : String) (h : Count cell '/' = 1) : Atoi cell = none := by
  apply Atoi_none_of_slash
  have : 0 < cell.data.count '/' := by
    unfold Count at h
    omega
  exact List.count_pos_iff.mp this

theorem Contains_false_of_Atoi (s : String) (v : Int) (h : Atoi s = some v) (u : Char)
    (hu : u = 's' ∨ u = 'm' ∨ u = 'h' ∨ u = 'd' ∨ u = 'y') : u ∉ s.data := by
  intro hmem
  have := Atoi_some_chars s v h u hmem
  rcases hu with e | e | e | e | e <;> subst e <;> revert this <;> decide

/-- A fraction of two halves that parse as integers holds no unit letter. -/
theorem largestUnitRank_of_numeric_fraction (cell n m : String) (a b : Int)
    (hs : Split cell '/' = [n, m]) (hn : Atoi n = some a) (hm : Atoi m = some b) :
    largestUnitRank cell = none := by
  have hdata := Split_two_data cell n m hs
  have hno : ∀ u : Char, (u = 's' ∨ u = 'm' ∨ u = 'h' ∨ u = 'd' ∨ u = 'y') →
      Contains cell u = false := by
    intro u hu
    have h1 := Contains_false_of_Atoi n a hn u hu
    have h2 := Contains_false_of_Atoi m b hm u hu
    have h3 : u ≠ '/' := by
      rcases hu with e | e | e | e | e <;> subst e <;> decide
    simp [Contains, hdata, h1, h2, h3]
  simp [largestUnitRank, hno]

/-- The AGE result of a cell never equals the color of its fraction. -/
theorem age_ne_fractionColor (i : Int) (cell : String) (c : Color)
    (h : fractionColor cell = some c) : columnRule i cell "AGE" ≠ some (c, true) := by
  intro hage
  rw [columnRule_AGE] at hage
  have hoff : Yellow256 + ageOffset cell units.length = c := by
    simpa using hage
  obtain ⟨hlo, hhi⟩ := ageOffset_units_range cell
  have hcol := fractionColor_mem cell c h
  have hy : c = Yellow256 := by
    rcases hcol with e | e | e
    · rw [e] at hoff
      have : (226 : Int) + ageOffset cell units.length = 34 := hoff
      omega
    · rw [e] at hoff
      have : (226 : Int) + ageOffset cell units.length = 1 := hoff
      omega
    · exact e
  subst hy
  have hzero : ageOffset cell units.length = 0 := by
    have : (226 : Int) + ageOffset cell units.length = 226 := hoff
    omega
  unfold fractionColor at h
  rcases hs : Split cell '/' with _ | ⟨n, _ | ⟨m, _ | ⟨d, rest⟩⟩⟩ <;> rw [hs] at h <;>
    simp only at h <;> try (simp at h; done)
  by_cases hab : n = m
  · simp only [hab, if_true, Option.some.injEq] at h
    exact absurd h (by decide)
  · simp only [hab, if_false] at h
    cases h1 : Atoi n <;> cases h2 : Atoi m <;> rw [h1, h2] at h <;> simp only at h <;>
      try (simp at h; done)
    rename_i a b
    have hr := largestUnitRank_of_numeric_fraction cell n m a b hs h1 h2
    rw [ageOffset_units, hr] at hzero
    simp at hzero

/-! ## Lemmas on `Apply` -/

theorem Apply_data (val : String) (c : Color) :
    (Apply val c).data =
      '\x1b' :: '[' :: '3' :: '8' :: ';' :: '5' :: ';' ::
        ((formatInt c).data ++ 'm' :: (val.data ++ ['\x1b', '[', '0', 'm'])) := by
  rfl

theorem Apply_eq_wrap (val : String) (c : Color) :
    Apply val c = foregroundPrefix c ++ val ++ resetAll := by
  apply String.ext
  rw [Apply_data]
  simp only [foregroundPrefix, resetAll, String.data_append]
  simp

theorem formatInt_of_nonneg (c : Int) (h : 0 ≤ c) : formatInt c = Nat.repr c.toNat := by
  have h1 : ¬ c < 0 := by omega
  have h2 : c.natAbs = c.toNat := by omega
  unfold formatInt
  rw [if_neg h1, h2]

set_option maxRecDepth 1000000 in
theorem repr_isDecimal_below_256 :
    ∀ n : Fin 256, isDecimal (Nat.repr n) ∧ decimalValue (Nat.repr n) = n := by
  decide

theorem dropEnds_wrap (pre text suf : String) :
    dropEnds pre.length suf.length (pre ++ text ++ suf) = text := by
  apply String.ext
  show (((pre ++ text ++ suf).data.drop pre.data.length).reverse.drop suf.data.length).reverse
    = text.data
  rw [String.data_append, String.data_append, List.append_assoc]
  have h1 : (pre.data ++ (text.data ++ suf.data)).drop pre.data.length
      = text.data ++ suf.data := List.drop_left _ _
  rw [h1, List.reverse_append]
  have h2 : (suf.data.reverse ++ text.data.reverse).drop suf.data.length
      = text.data.reverse := by
    have h3 := List.drop_left suf.data.reverse text.data.reverse
    rwa [List.length_reverse] at h3
  rw [h2, List.reverse_reverse]

theorem toNat_lt_256 (c : Int) (h0 : 0 ≤ c) (h255 : c ≤ 255) : c.toNat < 256 := by
  omega

/-! ## C1: the STATUS colors -/

/-- C1. In a column identified as STATUS (header `STATUS` at any position, or an empty
header at position 2) the rule colors `Running` with Green256 = 34, `Completed` and
`Succeeded` with DarkGreen = 28, `Pending` and `ContainerCreating` with Yellow256 = 226,
and `ImagePullBackOff`, `CrashLoopBackOff` and `Error` with Red = 1, always applying;
the dimmer green differs from the success green. -/
theorem status_known_colors (i : Int) (header : String)
    (h : header = "STATUS" ∨ (header = "" ∧ i = 2)) :
    columnRule i "Running" header = some (Green256, true) ∧
    columnRule i "Completed" header = some (DarkGreen, true) ∧
    columnRule i "Succeeded" header = some (DarkGreen, true) ∧
    columnRule i "Pending" header = some (Yellow256, true) ∧
    columnRule i "ContainerCreating" header = some (Yellow256, true) ∧
    columnRule i "ImagePullBackOff" header = some (Red, true) ∧
    columnRule i "CrashLoopBackOff" header = some (Red, true) ∧
    columnRule i "Error" header = some (Red, true) ∧
    Green256 = 34 ∧ DarkGreen = 28 ∧ Yellow256 = 226 ∧ Red = 1 ∧ DarkGreen ≠ Green256 := by
  refine ⟨?_, ?_, ?_, ?_, ?_, ?_, ?_, ?_, rfl, rfl, rfl, rfl, by decide⟩ <;>
    simp [columnRule, h]

/-- C1, witness: the header-less row `x x Pending x x`, position 2, gets 226. -/
theorem status_known_colors_witness :
    (("" : String) = "STATUS" ∨ (("" : String) = "" ∧ (2 : Int) = 2)) ∧
    columnRule 2 "Pending" "" = some (226, true) :=
  ⟨Or.inr ⟨rfl, rfl⟩, (status_known_colors 2 "" (Or.inr ⟨rfl, rfl⟩)).2.2.2.1⟩

/-! ## C2: the RESTARTS colors -/

/-- C2, counterexample. `00` is a decimal string of a non-negative integer other than the
string `0`, and under a `RESTARTS` header it is colored Green256, not Yellow256. -/
theorem restarts_double_zero_is_green :
    isDecimal "00" ∧ "00" ≠ "0" ∧ columnRule 3 "00" "RESTARTS" = some (Green256, true) ∧
    Green256 ≠ Yellow256 := by
  decide

/-- C2, amended. Under a `RESTARTS` header, at every position and for every cell, the rule
applies a color. The color follows the value `strconv.Atoi` parses: Green256 when it is 0
(the string `0` among others), Yellow256 for every other parsed integer, Red when `Atoi`
fails (`abc`). For a decimal string this reads: value 0 gives Green256, a non-zero value
below `2 ^ 63` gives Yellow256, and a value from `2 ^ 63` on gives Red. -/
theorem restarts_colors (i : Int) (cell : String) :
    (∃ c, columnRule i cell "RESTARTS" = some (c, true)) ∧
    columnRule i "0" "RESTARTS" = some (Green256, true) ∧
    columnRule i "abc" "RESTARTS" = some (Red, true) ∧
    (Atoi cell = some 0 → columnRule i cell "RESTARTS" = some (Green256, true)) ∧
    (∀ r, Atoi cell = some r → r ≠ 0 →
      columnRule i cell "RESTARTS" = some (Yellow256, true)) ∧
    (Atoi cell = none → columnRule i cell "RESTARTS" = some (Red, true)) ∧
    (isDecimal cell → decimalValue cell = 0 →
      columnRule i cell "RESTARTS" = some (Green256, true)) ∧
    (isDecimal cell → decimalValue cell ≠ 0 → decimalValue cell < 2 ^ 63 →
      columnRule i cell "RESTARTS" = some (Yellow256, true)) ∧
    (isDecimal cell → 2 ^ 63 ≤ decimalValue cell →
      columnRule i cell "RESTARTS" = some (Red, true)) := by
  refine ⟨?_, ?_, ?_, ?_, ?_, ?_, ?_, ?_, ?_⟩
  · rw [columnRule_RESTARTS]
    cases Atoi cell with
    | none => exact ⟨_, rfl⟩
    | some r => by_cases hr : r = 0 <;> simp [hr]
  · rw [columnRule_RESTARTS]; rfl
  · rw [columnRule_RESTARTS]; rfl
  · intro h; rw [columnRule_RESTARTS, h]; rfl
  · intro r h hr; rw [columnRule_RESTARTS, h]; simp [hr]
  · intro h; rw [columnRule_RESTARTS, h]
  · intro hd h0
    rw [columnRule_RESTARTS, Atoi_of_isDecimal cell hd, h0]; rfl
  · intro hd h0 hlt
    rw [columnRule_RESTARTS, Atoi_of_isDecimal cell hd, if_pos hlt]
    simp [h0]
  · intro hd hge
    rw [columnRule_RESTARTS, Atoi_of_isDecimal cell hd, if_neg (by omega)]

/-- C2, witness: `5` is colored Yellow256, `00` Green256 and `9223372036854775808` Red. -/
theorem restarts_colors_witness :
    columnRule 3 "5" "RESTARTS" = some (Yellow256, true) ∧
    columnRule 3 "00" "RESTARTS" = some (Green256, true) ∧
    columnRule 3 "9223372036854775808" "RESTARTS" = some (Red, true) :=
  ⟨(restarts_colors 3 "5").2.2.2.2.2.2.2.1 (by decide) (by decide) (by decide),
   (restarts_colors 3 "00").2.2.2.2.2.2.1 (by decide) (by decide),
   (restarts_colors 3 "9223372036854775808").2.2.2.2.2.2.2.2 (by decide) (by decide)⟩

/-! ## C3: equal fractions under READY -/

/-- C3, the code at the failing input. `02` and `2` are decimal strings of the same
integer, yet the cell `02/2` under a `READY` header is colored Yellow256, while the plain
`2/2` is colored Green256: the halves are compared as strings only. -/
theorem ready_leading_zero_is_yellow :
    isDecimal "02" ∧ isDecimal "2" ∧ decimalValue "02" = decimalValue "2" ∧
    fraction "02" "2" = "02/2" ∧
    columnRule 1 "02/2" "READY" = some (Yellow256, true) ∧
    columnRule 1 "2/2" "READY" = some (Green256, true) ∧
    Yellow256 ≠ Green256 := by
  decide

/-! ## C4: unequal fractions under READY -/

/-- C4, counterexample. `0` and `9223372036854775808` are decimal strings with `n = 0` and
`m > 0`, and the cell `0/9223372036854775808` under a `READY` header gets no color:
`m` does not fit the 64-bit `int`, so `Atoi` fails on it. -/
theorem ready_zero_of_huge_is_uncolored :
    isDecimal "0" ∧ isDecimal "9223372036854775808" ∧ decimalValue "0" = 0 ∧
    0 < decimalValue "9223372036854775808" ∧
    fraction "0" "9223372036854775808" = "0/9223372036854775808" ∧
    columnRule 1 "0/9223372036854775808" "READY" = some (0, false) := by
  decide

/-- C4, amended. Under a `READY` header, for every cell `n/m` of two decimal strings where
`m` denotes a value below `2 ^ 63`: `n = 0` and `m > 0` give Red, and `0 < n < m` gives
Yellow256, both applying. -/
theorem ready_red_and_yellow (i : Int) (n m : String) (hn : isDecimal n) (hm : isDecimal m)
    (hfit : decimalValue m < 2 ^ 63) :
    (decimalValue n = 0 → 0 < decimalValue m →
      columnRule i (fraction n m) "READY" = some (Red, true)) ∧
    (0 < decimalValue n → decimalValue n < decimalValue m →
      columnRule i (fraction n m) "READY" = some (Yellow256, true)) := by
  have hrule := columnRule_READY_fraction i n m
    (slash_not_mem_of_isDecimal n hn) (slash_not_mem_of_isDecimal m hm)
  have hAm : Atoi m = some (decimalValue m : Int) := by
    rw [Atoi_of_isDecimal m hm, if_pos hfit]
  constructor
  · intro h0 hpos
    have hne : n ≠ m := by
      intro e; rw [e] at h0; omega
    have hAn : Atoi n = some 0 := by
      rw [Atoi_of_isDecimal n hn, h0]; rfl
    rw [hrule, hAn, hAm]
    have hm0 : (decimalValue m : Int) > 0 := by exact_mod_cast hpos
    simp [hne, hm0]
  · intro hpos hlt
    have hne : n ≠ m := by
      intro e; rw [e] at hlt; omega
    have hAn : Atoi n = some (decimalValue n : Int) := by
      rw [Atoi_of_isDecimal n hn, if_pos (by omega)]
    rw [hrule, hAn, hAm]
    have hn0 : ¬ ((decimalValue n : Int) = 0) := by
      intro e
      have : decimalValue n = 0 := by exact_mod_cast e
      omega
    simp [hne, hn0]

/-- C4, witness: `0/1` is Red and `1/3` is Yellow256. -/
theorem ready_red_and_yellow_witness :
    columnRule 1 (fraction "0" "1") "READY" = some (Red, true) ∧
    columnRule 1 (fraction "1" "3") "READY" = some (Yellow256, true) :=
  ⟨(ready_red_and_yellow 1 "0" "1" (by decide) (by decide) (by decide)).1
      (by decide) (by decide),
   (ready_red_and_yellow 1 "1" "3" (by decide) (by decide) (by decide)).2
      (by decide) (by decide)⟩

/-! ## C5: the AGE gradient -/

/-- C5. Under an `AGE` header the rule applies at every position and for every cell, and
the palette index is 226 plus the rank of the largest unit letter present (`s` = 0, `m` = 1,
`h` = 2, `d` = 3, `y` = 4, scanned from `y` down), or 225 when none of the five letters
occurs; so a larger rank gives a strictly larger index. `26s` gives 226, `3h4m` gives 228
and `1y56d` gives 230. -/
theorem age_gradient (i : Int) (cell : String) :
    columnRule i cell "AGE" =
      some (226 + (match largestUnitRank cell with
                   | some r => (r : Int)
                   | none => -1), true) ∧
    (largestUnitRank cell = none → columnRule i cell "AGE" = some (225, true)) ∧
    (∀ (j : Int) (cell2 : String) (r r2 : Nat),
      largestUnitRank cell = some r → largestUnitRank cell2 = some r2 → r < r2 →
      ∃ c c2 : Color, columnRule i cell "AGE" = some (c, true) ∧
        columnRule j cell2 "AGE" = some (c2, true) ∧ c < c2) ∧
    columnRule i "26s" "AGE" = some (226, true) ∧
    columnRule i "3h4m" "AGE" = some (228, true) ∧
    columnRule i "1y56d" "AGE" = some (230, true) := by
  have hgen : ∀ (k : Int) (c : String), columnRule k c "AGE" =
      some (226 + (match largestUnitRank c with
                   | some r => (r : Int)
                   | none => -1), true) := by
    intro k c
    rw [columnRule_AGE, ageOffset_units]
    rfl
  refine ⟨hgen i cell, ?_, ?_, ?_, ?_, ?_⟩
  · intro h
    rw [hgen, h]; rfl
  · intro j cell2 r r2 h1 h2 hlt
    refine ⟨226 + (r : Int), 226 + (r2 : Int), ?_, ?_, ?_⟩
    · rw [hgen, h1]
    · rw [hgen, h2]
    · have : (r : Int) < (r2 : Int) := by exact_mod_cast hlt
      exact Int.add_lt_add_left this 226
  · rw [hgen]; rfl
  · rw [hgen]; rfl
  · rw [hgen]; rfl

/-- C5, witness: an age in hours is ranked below an age in years, 228 < 230. -/
theorem age_gradient_witness :
    ∃ c c2 : Color, columnRule 4 "3h4m" "AGE" = some (c, true) ∧
      columnRule 4 "1y56d" "AGE" = some (c2, true) ∧ c < c2 :=
  (age_gradient 4 "3h4m").2.2.1 4 "1y56d" 2 4 (by decide) (by decide) (by decide)

/-! ## C6: the rule on cells without a slash under READY -/

/-- C6, the code at the failing input. The cell `True` under a `READY` header makes the
rule panic (`arr[1]` on a one-element split), and the rule panics exactly when the header
is `READY` and the cell holds no `/`; on every other input it returns. -/
theorem ready_without_slash_panics (i : Int) (cell header : String) :
    columnRule 1 "True" "READY" = none ∧
    (columnRule i cell header = none ↔ header = "READY" ∧ Count cell '/' = 0) := by
  refine ⟨by decide, ?_⟩
  unfold columnRule
  by_cases h : header = "STATUS" ∨ (header = "" ∧ i = 2)
  · have hh : header ≠ "READY" := by
      rcases h with h | ⟨h, _⟩ <;> rw [h] <;> decide
    rw [if_pos h]
    split_ifs
    · simp [hh]
    · simp [hh]
    · simp [hh]
    · simp [hh]
    · exact readyBlock_eq_none_iff i cell header
  · rw [if_neg h]
    exact readyBlock_eq_none_iff i cell header

/-! ## C7: non-numeric halves under READY -/

/-- C7, counterexample. The cell `a/a` has exactly one `/` and a half that `Atoi` rejects,
and under a `READY` header it is colored Green256: equal halves are green before any
parsing. -/
theorem ready_equal_letters_is_green :
    Count "a/a" '/' = 1 ∧ fraction "a" "a" = "a/a" ∧ Atoi "a" = none ∧
    columnRule 1 "a/a" "READY" = some (Green256, true) := by
  decide

/-- C7, amended. Under a `READY` header, for every cell `n/m` with exactly one `/` whose
halves differ as strings: if `Atoi` rejects `n` or `m`, the rule gives no color. -/
theorem ready_non_numeric_no_color (i : Int) (n m : String)
    (hn : '/' ∉ n.data) (hm : '/' ∉ m.data) (hne : n ≠ m)
    (hnum : Atoi n = none ∨ Atoi m = none) :
    columnRule i (fraction n m) "READY" = some (0, false) := by
  rw [columnRule_READY_fraction i n m hn hm, if_pos hne]
  rcases hnum with h | h
  · rw [h]
  · rw [h]
    cases Atoi n <;> rfl

/-- C7, witness: `a/1` under `READY` gets no color. -/
theorem ready_non_numeric_no_color_witness :
    Atoi "a" = none ∧ columnRule 1 (fraction "a" "1") "READY" = some (0, false) :=
  ⟨by decide,
   ready_non_numeric_no_color 1 "a" "1" (by decide) (by decide) (by decide)
     (Or.inl (by decide))⟩

/-! ## C8: other texts in a STATUS column -/

/-- C8, counterexample. In a header-less table the cell `1/1` at position 2 is none of the
eight status texts, and it is colored Green256 by the READY block. -/
theorem status_position_slash_is_green :
    "1/1" ∉ knownStatuses ∧ columnRule 2 "1/1" "" = some (Green256, true) := by
  decide

/-- C8, amended. In a column identified as STATUS (header `STATUS`, or an empty header at
position 2), a cell that is none of the eight status texts gets no color, except under the
empty header when the cell is a readiness fraction with a color (exactly one `/`, the two
halves equal strings or both parsing as integers): such a cell gets that color. -/
theorem status_unknown_no_color (i : Int) (cell header : String)
    (hcell : cell ∉ knownStatuses)
    (h : header = "STATUS" ∨ (header = "" ∧ i = 2)) :
    (columnRule i cell header = some (0, false) ↔
      (header = "STATUS" ∨ fractionColor cell = none)) ∧
    (header = "" → ∀ c, fractionColor cell = some c →
      columnRule i cell header = some (c, true)) := by
  rw [columnRule_of_not_known i cell header hcell]
  rcases h with h | ⟨h, hi⟩
  · subst h
    have hr : readyBlock i cell "STATUS" = some (0, false) := by
      simp [readyBlock, restartsBlock, ageBlock]
    refine ⟨?_, ?_⟩
    · simp [hr]
    · intro he
      exact absurd he (by decide)
  · subst h
    subst hi
    rw [readyBlock_empty_header]
    have hr : restartsBlock 2 cell "" = some (0, false) := by
      simp [restartsBlock, ageBlock]
    cases hf : fractionColor cell with
    | none => simp [hr]
    | some c => simp

/-- C8, witness: `Unknown` under `STATUS`, and `Terminating`, `a/b` and `10%/80%` at
position 2 of a header-less row, get no color. -/
theorem status_unknown_no_color_witness :
    columnRule 7 "Unknown" "STATUS" = some (0, false) ∧
    columnRule 2 "Terminating" "" = some (0, false) ∧
    columnRule 2 "a/b" "" = some (0, false) ∧
    columnRule 2 "10%/80%" "" = some (0, false) :=
  ⟨(status_unknown_no_color 7 "Unknown" "STATUS" (by decide) (Or.inl rfl)).1.mpr (Or.inl rfl),
   (status_unknown_no_color 2 "Terminating" "" (by decide) (Or.inr ⟨rfl, rfl⟩)).1.mpr
     (Or.inr (by decide)),
   (status_unknown_no_color 2 "a/b" "" (by decide) (Or.inr ⟨rfl, rfl⟩)).1.mpr
     (Or.inr (by decide)),
   (status_unknown_no_color 2 "10%/80%" "" (by decide) (Or.inr ⟨rfl, rfl⟩)).1.mpr
     (Or.inr (by decide))⟩

/-! ## C9: positions 3 and 4 of a header-less table -/

/-- C9, counterexample. In a header-less table the cell `1/1` is colored Green256 at
positions 3 and 4, while the RESTARTS rule colors it Red and the AGE rule gives 225. -/
theorem headerless_slash_at_3_and_4 :
    columnRule 3 "1/1" "" = some (Green256, true) ∧
    columnRule 3 "1/1" "RESTARTS" = some (Red, true) ∧
    columnRule 4 "1/1" "" = some (Green256, true) ∧
    columnRule 4 "1/1" "AGE" = some (225, true) ∧
    Green256 ≠ Red ∧ Green256 ≠ 225 := by
  decide

/-- C9, amended. In a header-less table position 3 gets the RESTARTS result (Red when
`Atoi` fails, Green256 for 0, Yellow256 for another integer) and position 4 gets the AGE
result (226 plus the offset of the largest unit, 225 without a unit) for every cell that is
not a readiness fraction with a color (exactly one `/`, the two halves equal strings or
both parsing as integers). A fraction with a color gets that color at both positions; it
differs from the AGE result always, and from the RESTARTS result unless it is Red. -/
theorem headerless_restarts_and_age (cell : String) :
    (columnRule 3 cell "" = columnRule 3 cell "RESTARTS" ↔
      (fractionColor cell = none ∨ fractionColor cell = some Red)) ∧
    (columnRule 4 cell "" = columnRule 4 cell "AGE" ↔ fractionColor cell = none) ∧
    columnRule 3 cell "RESTARTS" =
      (match Atoi cell with
       | none => some (Red, true)
       | some r => if r = 0 then some (Green256, true) else some (Yellow256, true)) ∧
    columnRule 4 cell "AGE" =
      some (226 + (match largestUnitRank cell with
                   | some r => (r : Int)
                   | none => -1), true) ∧
    (∀ c, fractionColor cell = some c →
      columnRule 3 cell "" = some (c, true) ∧ columnRule 4 cell "" = some (c, true)) := by
  have h3 : columnRule 3 cell "" =
      match fractionColor cell with
      | some c => some (c, true)
      | none => columnRule 3 cell "RESTARTS" := by
    have e : columnRule 3 cell "" = readyBlock 3 cell "" := by simp [columnRule]
    rw [e, readyBlock_empty_header, columnRule_RESTARTS]
    cases fractionColor cell <;> simp [restartsBlock]
  have h4 : columnRule 4 cell "" =
      match fractionColor cell with
      | some c => some (c, true)
      | none => columnRule 4 cell "AGE" := by
    have e : columnRule 4 cell "" = readyBlock 4 cell "" := by simp [columnRule]
    rw [e, readyBlock_empty_header, columnRule_AGE]
    cases fractionColor cell <;> simp [restartsBlock, ageBlock]
  have hage : columnRule 4 cell "AGE" =
      some (226 + (match largestUnitRank cell with
                   | some r => (r : Int)
                   | none => -1), true) := by
    rw [columnRule_AGE, ageOffset_units]; rfl
  refine ⟨?_, ?_, columnRule_RESTARTS 3 cell, hage, ?_⟩
  · cases hf : fractionColor cell with
    | none => rw [h3, hf]; simp
    | some c =>
      have hA := Atoi_none_of_count cell (count_of_fractionColor cell c hf)
      rw [h3, hf, columnRule_RESTARTS, hA]
      simp
  · cases hf : fractionColor cell with
    | none => rw [h4, hf]; simp
    | some c =>
      have hne := age_ne_fractionColor 4 cell c hf
      rw [h4, hf]
      simp only [reduceCtorEq, iff_false]
      exact fun e => hne e.symm
  · intro c hf
    rw [h3, h4, hf]
    exact ⟨rfl, rfl⟩

/-- C9, witness: the header-less cells `7` and `a/b` at position 3 get the RESTARTS result,
`3h4m` and `80/TCP` at position 4 get the AGE result, and so does `0/1` at position 3,
whose fraction color is Red. -/
theorem headerless_restarts_and_age_witness :
    columnRule 3 "7" "" = columnRule 3 "7" "RESTARTS" ∧
    columnRule 3 "a/b" "" = columnRule 3 "a/b" "RESTARTS" ∧
    columnRule 3 "0/1" "" = columnRule 3 "0/1" "RESTARTS" ∧
    columnRule 4 "3h4m" "" = columnRule 4 "3h4m" "AGE" ∧
    columnRule 4 "80/TCP" "" = columnRule 4 "80/TCP" "AGE" :=
  ⟨(headerless_restarts_and_age "7").1.mpr (Or.inl (by decide)),
   (headerless_restarts_and_age "a/b").1.mpr (Or.inl (by decide)),
   (headerless_restarts_and_age "0/1").1.mpr (Or.inr (by decide)),
   (headerless_restarts_and_age "3h4m").2.1.mpr (by decide),
   (headerless_restarts_and_age "80/TCP").2.1.mpr (by decide)⟩

/-! ## C10: cells with one slash in a header-less table -/

/-- C11. A column of identity OTHER gets no color: the rule returns applies = false at
every position and for every cell when the header is non-empty and is not exactly
`STATUS`, `READY`, `RESTARTS` or `AGE`, and also when the header is empty, the position is
not 2, 3 or 4 and the cell does not hold exactly one `/`. -/
theorem other_columns_no_color (i : Int) (cell header : String)
    (h : (header ≠ "" ∧ header ≠ "STATUS" ∧ header ≠ "READY" ∧ header ≠ "RESTARTS" ∧
            header ≠ "AGE") ∨
         (header = "" ∧ i ≠ 2 ∧ i ≠ 3 ∧ i ≠ 4 ∧ Count cell '/' ≠ 1)) :
    columnRule i cell header = some (0, false) := by
  rcases h with ⟨h0, h1, h2, h3, h4⟩ | ⟨h0, h2, h3, h4, hc⟩
  · simp [columnRule, readyBlock, restartsBlock, ageBlock, h0, h1, h2, h3, h4]
  · subst h0
    simp [columnRule, readyBlock, restartsBlock, ageBlock, h2, h3, h4, hc]

/-- C11, witness: the header `Status` (matching is case-sensitive) colors nothing, and
neither does position 0 of a header-less row on a cell without a slash. -/
theorem other_columns_no_color_witness :
    columnRule 2 "Running" "Status" = some (0, false) ∧
    columnRule 0 "Running" "" = some (0, false) :=
  ⟨other_columns_no_color 2 "Running" "Status"
     (Or.inl ⟨by decide, by decide, by decide, by decide, by decide⟩),
   other_columns_no_color 0 "Running" ""
     (Or.inr ⟨rfl, by decide, by decide, by decide, by decide⟩)⟩

/-! ## C19: the colors of the rule are palette indices -/

/-- C19. Every color the column rule returns with applies = true is one of 1, 28, 34, 225,
226, 227, 228, 229, 230, hence a palette index in 0..255; the AGE index `226 + offset`
never leaves 225..230. -/
theorem rule_colors_in_palette (i : Int) (cell header : String) (c : Color)
    (h : columnRule i cell header = some (c, true)) :
    c ∈ rulePalette ∧ 0 ≤ c ∧ c ≤ 255 ∧
    225 ≤ Yellow256 + ageOffset cell units.length ∧
    Yellow256 + ageOffset cell units.length ≤ 230 := by
  have hmem : c ∈ rulePalette := by
    unfold columnRule at h
    split_ifs at h
    · simp only [Option.some.injEq, Prod.mk.injEq, and_true] at h; subst h; decide
    · simp only [Option.some.injEq, Prod.mk.injEq, and_true] at h; subst h; decide
    · simp only [Option.some.injEq, Prod.mk.injEq, and_true] at h; subst h; decide
    · simp only [Option.some.injEq, Prod.mk.injEq, and_true] at h; subst h; decide
    · exact readyBlock_palette i cell header c h
    · exact readyBlock_palette i cell header c h
  obtain ⟨h1, h2⟩ := ageOffset_units_range cell
  obtain ⟨hb1, hb2⟩ := rulePalette_bounds c hmem
  refine ⟨hmem, hb1, hb2, ?_, ?_⟩
  · show (225 : Int) ≤ 226 + ageOffset cell units.length
    omega
  · show (226 : Int) + ageOffset cell units.length ≤ 230
    omega

/-- C19, witness: the age `1y56d` gets the index 230, the top of the range. -/
theorem rule_colors_in_palette_witness :
    columnRule 4 "1y56d" "AGE" = some (230, true) ∧ (230 : Color) ∈ rulePalette ∧
    (0 : Color) ≤ 230 ∧ (230 : Color) ≤ 255 :=
  have h : columnRule 4 "1y56d" "AGE" = some (230, true) := by decide
  ⟨h, (rule_colors_in_palette 4 "1y56d" "AGE" 230 h).1,
   (rule_colors_in_palette 4 "1y56d" "AGE" 230 h).2.1,
   (rule_colors_in_palette 4 "1y56d" "AGE" 230 h).2.2.1⟩

/-! ## C20: the position is read only without a header -/

/-- C20. With a non-empty header the rule does not depend on the position: for every cell
and all positions `i` and `j` the outcome is the same (the same color and applies flag, or
a panic at both). A position can matter only under the empty header, where it does:
`Running` is colored at position 2 and not at position 1. -/
theorem position_irrelevant_with_header (i j : Int) (cell header : String)
    (h : header ≠ "") :
    columnRule i cell header = columnRule j cell header ∧
    columnRule 2 "Running" "" = some (Green256, true) ∧
    columnRule 1 "Running" "" = some (0, false) := by
  refine ⟨?_, by decide, by decide⟩
  simp [columnRule, readyBlock, restartsBlock, ageBlock, h]

/-- C20, witness: `5` under `RESTARTS` at positions 0 and 3. -/
theorem position_irrelevant_with_header_witness :
    ("RESTARTS" : String) ≠ "" ∧
    columnRule 0 "5" "RESTARTS" = columnRule 3 "5" "RESTARTS" :=
  ⟨by decide, (position_irrelevant_with_header 0 3 "5" "RESTARTS" (by decide)).1⟩

/-! ## C12: the escape sequences of `Apply` -/

/-- C12. For every text and every color `c` with 0 <= c <= 255, `Apply text c` is exactly
`ESC [38;5; decimal(c) m`, the text, `ESC [0m`, where `decimal(c)` is a string of decimal
digits with value `c`: a prefix that depends on `c` only, the unmodified text, and the
reset-all suffix; dropping the prefix and the suffix gives the text back. -/
theorem apply_wraps_text (text : String) (c : Color) (h0 : 0 ≤ c) (h255 : c ≤ 255) :
    Apply text c =
      escape ++ "[38;5;" ++ Nat.repr c.toNat ++ "m" ++ text ++ escape ++ "[0m" ∧
    escape = "\x1b" ∧
    isDecimal (Nat.repr c.toNat) ∧ decimalValue (Nat.repr c.toNat) = c.toNat ∧
    Apply text c = foregroundPrefix c ++ text ++ resetAll ∧
    dropEnds (foregroundPrefix c).length resetAll.length (Apply text c) = text := by
  have hlt : c.toNat < 256 := toNat_lt_256 c h0 h255
  have hdec := repr_isDecimal_below_256 ⟨c.toNat, hlt⟩
  refine ⟨?_, rfl, hdec.1, hdec.2, Apply_eq_wrap text c, ?_⟩
  · rw [Apply_eq_wrap, foregroundPrefix, formatInt_of_nonneg c h0]
    apply String.ext
    simp [resetAll, escape, String.data_append]
  · rw [Apply_eq_wrap]
    exact dropEnds_wrap _ _ _

/-- C12, witness: `Running` in Green256. -/
theorem apply_wraps_text_witness :
    Apply "Running" 34 = "\x1b[38;5;34mRunning\x1b[0m" ∧
    dropEnds 10 4 (Apply "Running" 34) = "Running" :=
  ⟨(apply_wraps_text "Running" 34 (by decide) (by decide)).1.trans (by decide),
   (by decide : (foregroundPrefix 34).length = 10 ∧ resetAll.length = 4).1 ▸
     (apply_wraps_text "Running" 34 (by decide) (by decide)).2.2.2.2.2⟩

/-! ## C13: the help flag -/

/-- C13. When the help flag is set, `Print` invokes a single-color printer (the yellow
`SingleColoredPrinter`) whatever the subcommand, the format option and the flags
`NoHeader`, `Short`, `Recursive` and `DarkBackground` are; the strategy is no table,
structured or specialized one and carries no column rule. -/
theorem help_overrides_selection (kp : KubectlOutputColoredPrinter)
    (h : kp.SubcommandInfo.Help = true) :
    selectedPrinter kp = Printer.SingleColoredPrinter Yellow ∧
    Print kp = [Printer.SingleColoredPrinter Yellow] ∧
    isSingleColored (selectedPrinter kp) = true ∧
    columnRuleOf (selectedPrinter kp) = none := by
  have hsel : selectedPrinter kp = Printer.SingleColoredPrinter Yellow := by
    simp [selectedPrinter, h]
  refine ⟨hsel, ?_, ?_, ?_⟩
  · simp [Print, hsel]
  · rw [hsel]; rfl
  · rw [hsel]; rfl

/-- C13, witness: `kubectl get --help`. -/
theorem help_overrides_selection_witness :
    Print (renderContext Subcommand.Get FormatOption.None false false true true false)
      = [Printer.SingleColoredPrinter Yellow] :=
  (help_overrides_selection _ rfl).2.1

/-! ## C14: the table strategy with the column rule -/

/-- C14. The selected strategy is a table strategy with a column rule if and only if the
help flag is unset, the subcommand is `Get` and the format option is `None` or `Wide`; it
is then the table printer built with header flag `!NoHeader` and the column rule, and in
every other case the selected strategy carries no column rule. -/
theorem table_with_rule_iff (kp : KubectlOutputColoredPrinter) :
    ((∃ t, selectedPrinter kp = Printer.Table t ∧ t.ColorDeciderFn.isSome = true) ↔
      (kp.SubcommandInfo.Help = false ∧ kp.SubcommandInfo.Subcommand = Subcommand.Get ∧
        (kp.SubcommandInfo.FormatOption = FormatOption.None ∨
          kp.SubcommandInfo.FormatOption = FormatOption.Wide))) ∧
    ((kp.SubcommandInfo.Help = false ∧ kp.SubcommandInfo.Subcommand = Subcommand.Get ∧
        (kp.SubcommandInfo.FormatOption = FormatOption.None ∨
          kp.SubcommandInfo.FormatOption = FormatOption.Wide)) →
      selectedPrinter kp =
        Printer.Table (NewTablePrinterWithHeader (!kp.SubcommandInfo.NoHeader)
          kp.DarkBackground columnRule) ∧
      (NewTablePrinterWithHeader (!kp.SubcommandInfo.NoHeader)
          kp.DarkBackground columnRule).WithHeader = !kp.SubcommandInfo.NoHeader) ∧
    (¬ (kp.SubcommandInfo.Help = false ∧ kp.SubcommandInfo.Subcommand = Subcommand.Get ∧
        (kp.SubcommandInfo.FormatOption = FormatOption.None ∨
          kp.SubcommandInfo.FormatOption = FormatOption.Wide)) →
      columnRuleOf (selectedPrinter kp) = none) := by
  obtain ⟨⟨sub, fo, nh, sh, help⟩, dark, rec⟩ := kp
  cases help <;> cases sub <;> cases fo <;> cases sh <;>
    simp [selectedPrinter, columnRuleOf, NewTablePrinter, NewTablePrinterWithHeader]

/-- C14, witness: `kubectl get -o wide --no-headers` selects the table printer with the
column rule and header flag false; `kubectl get -o json` carries no rule. -/
theorem table_with_rule_iff_witness :
    selectedPrinter (renderContext Subcommand.Get FormatOption.Wide true false false false false)
      = Printer.Table (NewTablePrinterWithHeader false false columnRule) ∧
    columnRuleOf (selectedPrinter
      (renderContext Subcommand.Get FormatOption.Json true false false false false)) = none :=
  ⟨((table_with_rule_iff _).2.1 ⟨rfl, rfl, Or.inr rfl⟩).1,
   (table_with_rule_iff _).2.2 (by simp [renderContext])⟩

/-! ## C15: the green default -/

/-- C15. With the help flag unset, a subcommand that is none of `Top`, `APIResources`,
`APIVersions`, `Get`, `Describe`, `Explain`, `Version`, `Options`, `Apply`, and also `Get`
with a format option that is none of `None`, `Wide`, `Json`, `Yaml`, select the
single-color printer in `Green`. For every input `Print` selects one printer and calls
its `Print` once. -/
theorem default_is_green (kp : KubectlOutputColoredPrinter)
    (hhelp : kp.SubcommandInfo.Help = false)
    (h : (kp.SubcommandInfo.Subcommand ≠ Subcommand.Top ∧
          kp.SubcommandInfo.Subcommand ≠ Subcommand.APIResources ∧
          kp.SubcommandInfo.Subcommand ≠ Subcommand.APIVersions ∧
          kp.SubcommandInfo.Subcommand ≠ Subcommand.Get ∧
          kp.SubcommandInfo.Subcommand ≠ Subcommand.Describe ∧
          kp.SubcommandInfo.Subcommand ≠ Subcommand.Explain ∧
          kp.SubcommandInfo.Subcommand ≠ Subcommand.Version ∧
          kp.SubcommandInfo.Subcommand ≠ Subcommand.Options ∧
          kp.SubcommandInfo.Subcommand ≠ Subcommand.Apply) ∨
         (kp.SubcommandInfo.Subcommand = Subcommand.Get ∧
          kp.SubcommandInfo.FormatOption ≠ FormatOption.None ∧
          kp.SubcommandInfo.FormatOption ≠ FormatOption.Wide ∧
          kp.SubcommandInfo.FormatOption ≠ FormatOption.Json ∧
          kp.SubcommandInfo.FormatOption ≠ FormatOption.Yaml)) :
    selectedPrinter kp = Printer.SingleColoredPrinter Green ∧
    (∀ kp2 : KubectlOutputColoredPrinter,
      Print kp2 = [selectedPrinter kp2] ∧ (Print kp2).length = 1) := by
  refine ⟨?_, fun kp2 => ⟨rfl, rfl⟩⟩
  obtain ⟨⟨sub, fo, nh, sh, help⟩, dark, rec⟩ := kp
  simp only at hhelp h
  subst hhelp
  rcases h with ⟨h1, h2, h3, h4, h5, h6, h7, h8, h9⟩ | ⟨h0, h1, h2, h3, h4⟩
  · cases sub <;> simp_all [selectedPrinter]
  · subst h0
    simp [selectedPrinter, h1, h2, h3, h4]

/-- C15, witness: a subcommand outside the nine, and `Get` with a further format. -/
theorem default_is_green_witness :
    selectedPrinter
        (renderContext (Subcommand.other 0) FormatOption.None false false false false false)
      = Printer.SingleColoredPrinter Green ∧
    selectedPrinter
        (renderContext Subcommand.Get (FormatOption.other 0) false false false false false)
      = Printer.SingleColoredPrinter Green :=
  ⟨(default_is_green _ rfl (Or.inl (by simp [renderContext]))).1,
   (default_is_green _ rfl (Or.inr (by simp [renderContext]))).1⟩

/-! ## C16: the tables without a rule -/

/-- C16. With the help flag unset: for `Top` and `APIResources` the selected table printer
has header flag `!NoHeader` and no column rule; for `APIVersions` the header flag is false
for both values of `NoHeader`, with no column rule; for `Describe` the inner table of the
nested-table printer has header flag false and no column rule. -/
theorem ruleless_table_headers (kp : KubectlOutputColoredPrinter)
    (hhelp : kp.SubcommandInfo.Help = false) :
    ((kp.SubcommandInfo.Subcommand = Subcommand.Top ∨
        kp.SubcommandInfo.Subcommand = Subcommand.APIResources) →
      ∃ t, selectedPrinter kp = Printer.Table t ∧
        t = NewTablePrinter (!kp.SubcommandInfo.NoHeader) kp.DarkBackground none ∧
        t.WithHeader = !kp.SubcommandInfo.NoHeader ∧ t.ColorDeciderFn = none) ∧
    (kp.SubcommandInfo.Subcommand = Subcommand.APIVersions →
      ∃ t, selectedPrinter kp = Printer.Table t ∧
        t = NewTablePrinter false kp.DarkBackground none ∧
        t.WithHeader = false ∧ t.ColorDeciderFn = none) ∧
    (kp.SubcommandInfo.Subcommand = Subcommand.Describe →
      ∃ t, selectedPrinter kp = Printer.DescribePrinter kp.DarkBackground t ∧
        t = NewTablePrinter false kp.DarkBackground none ∧
        t.WithHeader = false ∧ t.ColorDeciderFn = none) := by
  obtain ⟨⟨sub, fo, nh, sh, help⟩, dark, rec⟩ := kp
  simp only at hhelp
  subst hhelp
  refine ⟨?_, ?_, ?_⟩
  · rintro (h | h) <;> simp only at h <;> subst h <;>
      exact ⟨_, by simp [selectedPrinter], rfl, rfl, rfl⟩
  · intro h
    simp only at h
    subst h
    exact ⟨_, by simp [selectedPrinter], rfl, rfl, rfl⟩
  · intro h
    simp only at h
    subst h
    exact ⟨_, by simp [selectedPrinter], rfl, rfl, rfl⟩

/-- C16, witness: `kubectl top --no-headers`, `kubectl api-versions` and
`kubectl describe`. -/
theorem ruleless_table_headers_witness :
    selectedPrinter (renderContext Subcommand.Top FormatOption.None true false false false false)
      = Printer.Table (NewTablePrinter false false none) ∧
    selectedPrinter
        (renderContext Subcommand.APIVersions FormatOption.None false false false false false)
      = Printer.Table (NewTablePrinter false false none) ∧
    selectedPrinter
        (renderContext Subcommand.Describe FormatOption.None false false false true false)
      = Printer.DescribePrinter true (NewTablePrinter false true none) := by
  obtain ⟨t1, h1, e1, _⟩ := (ruleless_table_headers
    (renderContext Subcommand.Top FormatOption.None true false false false false) rfl).1
    (Or.inl rfl)
  obtain ⟨t2, h2, e2, _⟩ := (ruleless_table_headers
    (renderContext Subcommand.APIVersions FormatOption.None false false false false false)
    rfl).2.1 rfl
  obtain ⟨t3, h3, e3, _⟩ := (ruleless_table_headers
    (renderContext Subcommand.Describe FormatOption.None false false false true false)
    rfl).2.2 rfl
  subst e1 e2 e3
  exact ⟨h1, h2, h3⟩

/-! ## C17: the colors of the single-color strategies -/

/-- C17, counterexample. The help override prints in `Yellow`, palette index 3, while the
rule colors `Pending` with index 226; the default prints in `Green`, palette index 2,
while the rule colors `Running` with index 34. -/
theorem single_colors_differ_from_rule_hues :
    selectedPrinter (renderContext Subcommand.Get FormatOption.None false false true false false)
      = Printer.SingleColoredPrinter 3 ∧
    columnRule 2 "Pending" "STATUS" = some (226, true) ∧
    selectedPrinter
        (renderContext (Subcommand.other 0) FormatOption.None false false false false false)
      = Printer.SingleColoredPrinter 2 ∧
    columnRule 2 "Running" "STATUS" = some (34, true) ∧
    (3 : Color) ≠ 226 ∧ (2 : Color) ≠ 34 :=
  ⟨rfl, by decide, rfl, by decide, by decide, by decide⟩

/-- C17, amended. The single-color strategies use the constants of the 8-color range: the
help override prints in `Yellow`, palette index 3, and the default strategy in `Green`,
palette index 2; the column rule colors a `Pending` status with `Yellow256`, index 226,
and a `Running` status with `Green256`, index 34. -/
theorem single_colors_are_basic (kp : KubectlOutputColoredPrinter) (i : Int) :
    (kp.SubcommandInfo.Help = true → selectedPrinter kp = Printer.SingleColoredPrinter 3) ∧
    (∀ code, kp.SubcommandInfo.Help = false →
      kp.SubcommandInfo.Subcommand = Subcommand.other code →
      selectedPrinter kp = Printer.SingleColoredPrinter 2) ∧
    Yellow = 3 ∧ Green = 2 ∧
    columnRule i "Pending" "STATUS" = some (226, true) ∧
    columnRule i "Running" "STATUS" = some (34, true) ∧
    Yellow256 = 226 ∧ Green256 = 34 := by
  refine ⟨?_, ?_, rfl, rfl, ?_, ?_, rfl, rfl⟩
  · intro h
    simp [selectedPrinter, h, Yellow]
  · intro code h hs
    simp [selectedPrinter, h, hs, Green]
  · simp [columnRule, Yellow256]
  · simp [columnRule, Green256]

/-- C17, witness: `kubectl get --help` prints in index 3. -/
theorem single_colors_are_basic_witness :
    selectedPrinter (renderContext Subcommand.Get FormatOption.None false false true false false)
      = Printer.SingleColoredPrinter 3 :=
  (single_colors_are_basic _ 0).1 rfl

/-! ## C18: the structured formats -/

/-- C18. With the help flag unset and the subcommand `Get`, `Version` or `Apply`, the
format option `Json` selects `JsonPrinter` and `Yaml` selects `YamlPrinter`, each with the
context's `DarkBackground`. For `Version` this holds whatever `Short` is:
`VersionShortPrinter` is selected exactly when `Short` is set and the format is neither
`Json` nor `Yaml`, and `VersionPrinter` when `Short` is unset and the format is neither.
For `Apply` every format other than `Json` and `Yaml` selects `ApplyPrinter`. -/
theorem structured_formats (kp : KubectlOutputColoredPrinter)
    (hhelp : kp.SubcommandInfo.Help = false) :
    ((kp.SubcommandInfo.Subcommand = Subcommand.Get ∨
        kp.SubcommandInfo.Subcommand = Subcommand.Version ∨
        kp.SubcommandInfo.Subcommand = Subcommand.Apply) →
      (kp.SubcommandInfo.FormatOption = FormatOption.Json →
        selectedPrinter kp = Printer.JsonPrinter kp.DarkBackground) ∧
      (kp.SubcommandInfo.FormatOption = FormatOption.Yaml →
        selectedPrinter kp = Printer.YamlPrinter kp.DarkBackground)) ∧
    (kp.SubcommandInfo.Subcommand = Subcommand.Version →
      (selectedPrinter kp = Printer.VersionShortPrinter kp.DarkBackground ↔
        (kp.SubcommandInfo.Short = true ∧
          kp.SubcommandInfo.FormatOption ≠ FormatOption.Json ∧
          kp.SubcommandInfo.FormatOption ≠ FormatOption.Yaml)) ∧
      (selectedPrinter kp = Printer.VersionPrinter kp.DarkBackground ↔
        (kp.SubcommandInfo.Short = false ∧
          kp.SubcommandInfo.FormatOption ≠ FormatOption.Json ∧
          kp.SubcommandInfo.FormatOption ≠ FormatOption.Yaml))) ∧
    (kp.SubcommandInfo.Subcommand = Subcommand.Apply →
      kp.SubcommandInfo.FormatOption ≠ FormatOption.Json →
      kp.SubcommandInfo.FormatOption ≠ FormatOption.Yaml →
      selectedPrinter kp = Printer.ApplyPrinter kp.DarkBackground) := by
  obtain ⟨⟨sub, fo, nh, sh, help⟩, dark, rec⟩ := kp
  simp only at hhelp
  subst hhelp
  refine ⟨?_, ?_, ?_⟩
  · rintro (h | h | h) <;> simp only at h <;> subst h <;>
      constructor <;> intro hf <;> simp only at hf <;> subst hf <;> simp [selectedPrinter]
  · intro h
    simp only at h
    subst h
    cases fo <;> cases sh <;> simp [selectedPrinter]
  · intro h h1 h2
    simp only at h h1 h2
    subst h
    simp [selectedPrinter, h1, h2]

/-- C18, witness: `kubectl version --short -o json` selects `JsonPrinter`, and
`kubectl version --short` selects `VersionShortPrinter`. -/
theorem structured_formats_witness :
    selectedPrinter
        (renderContext Subcommand.Version FormatOption.Json false true false true false)
      = Printer.JsonPrinter true ∧
    selectedPrinter
        (renderContext Subcommand.Version FormatOption.None false true false true false)
      = Printer.VersionShortPrinter true :=
  ⟨((structured_formats
      (renderContext Subcommand.Version FormatOption.Json false true false true false)
      rfl).1 (Or.inr (Or.inl rfl))).1 rfl,
   ((structured_formats
      (renderContext Subcommand.Version FormatOption.None false true false true false)
      rfl).2.1 rfl).1.mpr ⟨rfl, by simp [renderContext], by simp [renderContext]⟩⟩

end Kubecolor
